import Mathlib

/-!
Shallow embedding of the TinyLocket extension core: the crypto layer
(CryptoService), the persisted data model and StorageService, the
VaultService lock/unlock state machine, the SessionService auto-lock
handler, the background message handler (handleRequest) and the
streaming api-proxy.  Effects are made explicit: `Date.now()` values,
freshly generated random salts/nonces and uuids are passed as
arguments, chrome.storage.local is a `StoredData` value threaded
through, and every persisted write of the vault record is logged in a
`List VaultData` so frame properties about writes can be stated.
-/

namespace TinyLocket

/-- Modelled from the spec: the PBKDF2-SHA256 key derivation of
CryptoService.deriveKey is provided by the external `@noble/hashes`
library (not part of this repository's sources).  It is deterministic
given the same password and salt, and is idealized here as
collision-free: a derived key is represented symbolically by the
password and salt that produced it. -/
structure KdfKey where
  password : String
  salt : Nat
deriving DecidableEq, Repr

/-- Modelled from the spec: AES-256-GCM authenticated encryption
(CryptoService.encrypt / decrypt) is provided by the external
`@noble/ciphers` library.  It is idealized symbolically: a ciphertext
records the plaintext, the key and the nonce under which it was
produced, and decryption succeeds exactly when key and nonce match
(tag verification failure otherwise, surfaced as `none`).  The
serialization pair JSON.stringify / JSON.parse used around the vault
plaintext composes to the identity, so the plaintext type is left
polymorphic instead of being forced through strings. -/
structure Ciphertext (α : Type) where
  data : α
  keyUsed : KdfKey
  nonceUsed : Nat
deriving DecidableEq, Repr

/-- CryptoService.deriveKey with an explicit salt (the salt argument is
the 16 fresh random bytes when the caller passed none). -/
def deriveKey (password : String) (salt : Nat) : KdfKey :=
  ⟨password, salt⟩

/-- CryptoService.encrypt: the fresh random 96-bit nonce generated
inside encrypt is the explicit `iv` argument. -/
def encrypt {α : Type} (data : α) (key : KdfKey) (iv : Nat) : Ciphertext α :=
  ⟨data, key, iv⟩

/-- CryptoService.decrypt: returns `none` on authentication failure
(wrong key or wrong nonce), `some` plaintext otherwise. -/
def decrypt {α : Type} (c : Ciphertext α) (key : KdfKey) (iv : Nat) : Option α :=
  if c.keyUsed = key ∧ c.nonceUsed = iv then some c.data else none

/-! Data model, from src/shared/types (storage.ts and providers.ts).
The base64 transport encoding (CryptoService.toBase64 / fromBase64) is
a bijection carrying no logic, so vault fields hold the decoded values
directly.  The TS `LlmProvider` string-union is erased at runtime and
requests arrive from untrusted pages, so provider ids are plain
strings here, as they are at runtime. -/

/-- ApiKeyEntry from storage.ts. -/
structure ApiKeyEntry where
  id : String
  provider : String
  name : String
  apiKey : String
  endpointUrl : Option String
  createdAt : Nat
  updatedAt : Nat
deriving DecidableEq, Repr, Inhabited

/-- VaultData from storage.ts: the only persisted representation of
credentials. -/
structure VaultData where
  encrypted : Ciphertext (List ApiKeyEntry)
  salt : Nat
  iv : Nat
  createdAt : Nat
  updatedAt : Nat
deriving DecidableEq, Repr

/-- WhitelistedDomain from storage.ts. -/
structure WhitelistedDomain where
  domain : String
  addedAt : Nat
deriving DecidableEq, Repr

/-- RequestHistoryEntry from storage.ts (metadata only). -/
structure RequestHistoryEntry where
  id : String
  timestamp : Nat
  provider : String
  endpoint : String
  domain : String
  status : Nat
  durationMs : Nat
deriving DecidableEq, Repr

/-- ExtensionSettings from storage.ts. -/
structure ExtensionSettings where
  autoLockMinutes : Nat
  historyEnabled : Bool
  maxHistoryEntries : Nat
deriving DecidableEq, Repr

/-- DEFAULT_SETTINGS from storage.ts. -/
def DEFAULT_SETTINGS : ExtensionSettings :=
  ⟨30, true, 1000⟩

/-- StoredData from storage.ts: the chrome.storage.local key-value
namespace. -/
structure StoredData where
  vault : Option VaultData
  whitelistedDomains : List WhitelistedDomain
  requestHistory : List RequestHistoryEntry
  settings : ExtensionSettings
  customEndpoints : List (String × String)
deriving DecidableEq, Repr

/-- ProviderConfig from providers.ts.  The source field `authPrefix`
is rendered `authPfx` here. -/
structure ProviderConfig where
  id : String
  name : String
  baseUrl : String
  authHeader : String
  authPfx : String
  testEndpoint : String
  requiresEndpointUrl : Bool
deriving DecidableEq, Repr

/-- PROVIDERS from providers.ts: the static table of 11 entries. -/
def PROVIDERS : List ProviderConfig :=
  [ ⟨"openai", "OpenAI", "https://api.openai.com", "Authorization", "Bearer ",
      "/v1/models", false⟩,
    ⟨"anthropic", "Anthropic", "https://api.anthropic.com", "x-api-key", "",
      "/v1/messages", false⟩,
    ⟨"gemini", "Google Gemini", "https://generativelanguage.googleapis.com",
      "x-goog-api-key", "", "/v1/models", false⟩,
    ⟨"mistral", "Mistral AI", "https://api.mistral.ai", "Authorization", "Bearer ",
      "/v1/models", false⟩,
    ⟨"cohere", "Cohere", "https://api.cohere.ai", "Authorization", "Bearer ",
      "/v1/models", false⟩,
    ⟨"groq", "Groq", "https://api.groq.com/openai", "Authorization", "Bearer ",
      "/v1/models", false⟩,
    ⟨"xai", "xAI (Grok)", "https://api.x.ai", "Authorization", "Bearer ",
      "/v1/models", false⟩,
    ⟨"deepseek", "DeepSeek", "https://api.deepseek.com", "Authorization", "Bearer ",
      "/v1/models", false⟩,
    ⟨"perplexity", "Perplexity", "https://api.perplexity.ai", "Authorization", "Bearer ",
      "/chat/completions", false⟩,
    ⟨"together", "Together AI", "https://api.together.xyz", "Authorization", "Bearer ",
      "/v1/models", false⟩,
    ⟨"lm_studio", "LM Studio / Custom", "", "Authorization", "Bearer ",
      "/v1/models", true⟩ ]

/-- getProviderById from providers.ts. -/
def getProviderById (id : String) : Option ProviderConfig :=
  PROVIDERS.find? (fun p => p.id == id)

/-! StorageService, from StorageService.ts.  The read-through cache is
transparent for a single background context (every write updates both
the store and the cache in the source), so operations act directly on
the `StoredData` value. -/

/-- JavaScript `arr.slice(-n)` for a non-negative `n`: for `n = 0` the
argument is `-0 === 0`, so the whole array is returned; for `n ≥ 1`
the last `min n arr.length` elements are returned. -/
def jsSliceNeg {α : Type} (n : Nat) (l : List α) : List α :=
  if n = 0 then l else l.drop (l.length - n)

/-- StorageService.saveVault. -/
def StorageService.saveVault (sd : StoredData) (vault : VaultData) : StoredData :=
  { sd with vault := some vault }

/-- StorageService.isDomainWhitelisted. -/
def StorageService.isDomainWhitelisted (sd : StoredData) (domain : String) : Bool :=
  sd.whitelistedDomains.any (fun d => d.domain == domain)

/-- StorageService.addRequestHistory: appends the entry and trims with
JavaScript `history.slice(-maxHistoryEntries)` when the length exceeds
`maxHistoryEntries`; a no-op when history is disabled. -/
def StorageService.addRequestHistory (sd : StoredData) (entry : RequestHistoryEntry) :
    StoredData :=
  if ¬ sd.settings.historyEnabled then sd
  else
    let history := sd.requestHistory ++ [entry]
    let history2 :=
      if sd.settings.maxHistoryEntries < history.length then
        jsSliceNeg sd.settings.maxHistoryEntries history
      else history
    { sd with requestHistory := history2 }

/-- Iterated StorageService.addRequestHistory over a list of entries,
oldest inserted first. -/
def StorageService.addRequestHistoryAll (sd : StoredData)
    (entries : List RequestHistoryEntry) : StoredData :=
  entries.foldl StorageService.addRequestHistory sd

/-- StorageService.saveCustomEndpoint: JavaScript object spread
`{...endpoints, [keyId]: url}` keeps the position of an existing key
and appends a new one. -/
def StorageService.saveCustomEndpoint (sd : StoredData) (keyId url : String) :
    StoredData :=
  let endpoints :=
    if sd.customEndpoints.any (fun p => p.1 == keyId) then
      sd.customEndpoints.map (fun p => if p.1 == keyId then (keyId, url) else p)
    else sd.customEndpoints ++ [(keyId, url)]
  { sd with customEndpoints := endpoints }

/-! VaultService, from VaultService.ts.  The in-memory fields
`decryptedKeys` and `encryptionKey` become a `VaultState`; the
`zeroized` field logs every key buffer passed to
CryptoService.zeroMemory, so zeroization on release can be stated.
Operations that call `Date.now()`, `uuidv4()` or generate random
salts/ivs take them as explicit arguments.  Each operation returns the
list of vault records it persisted (its storageService.saveVault
calls, in order). -/

/-- In-memory state of the VaultService singleton. -/
structure VaultState where
  decryptedKeys : Option (List ApiKeyEntry)
  encryptionKey : Option KdfKey
  zeroized : List KdfKey
deriving DecidableEq, Repr

/-- Errors thrown by VaultService methods. -/
inductive VaultError where
  | alreadyExists
  | vaultMissing
  | vaultLocked
deriving DecidableEq, Repr

/-- VaultService.isUnlocked. -/
def VaultService.isUnlocked (st : VaultState) : Bool :=
  st.decryptedKeys.isSome && st.encryptionKey.isSome

/-- VaultService.lock: zeroizes the held key (if any), drops the
decrypted list, leaves the persisted record untouched. -/
def VaultService.lock (st : VaultState) : VaultState :=
  ⟨none, none, st.zeroized ++ st.encryptionKey.toList⟩

/-- VaultService.create: fails if a vault record is already persisted;
derives a key from a fresh salt, encrypts an empty credential list
under a fresh iv, persists the record and holds key and empty list in
memory. -/
def VaultService.create (st : VaultState) (sd : StoredData) (password : String)
    (freshSalt freshIv now : Nat) :
    Except VaultError (VaultState × StoredData × List VaultData) :=
  if sd.vault.isSome then .error .alreadyExists
  else
    let key := deriveKey password freshSalt
    let c := encrypt ([] : List ApiKeyEntry) key freshIv
    let vault : VaultData := ⟨c, freshSalt, freshIv, now, now⟩
    .ok ({ st with decryptedKeys := some [], encryptionKey := some key },
         StorageService.saveVault sd vault, [vault])

/-- VaultService.unlock: throws when no vault record is persisted;
otherwise derives a key from the persisted salt and attempts
decryption, returning `true` with the key and the decrypted list held
in memory, or `false` with the state untouched when decryption (or
parsing) fails — the whole try-block is caught. -/
def VaultService.unlock (st : VaultState) (sd : StoredData) (password : String) :
    Except VaultError (Bool × VaultState) :=
  match sd.vault with
  | none => .error .vaultMissing
  | some v =>
    let key := deriveKey password v.salt
    match decrypt v.encrypted key v.iv with
    | some keys =>
        .ok (true, { st with decryptedKeys := some keys, encryptionKey := some key })
    | none => .ok (false, st)

/-- VaultService.getKeys: throws when locked, otherwise returns a copy
of the decrypted list. -/
def VaultService.getKeys (st : VaultState) : Except VaultError (List ApiKeyEntry) :=
  if VaultService.isUnlocked st then .ok (st.decryptedKeys.getD [])
  else .error .vaultLocked

/-- VaultService.getKeyForProvider: throws when locked, otherwise the
first stored credential whose provider matches. -/
def VaultService.getKeyForProvider (st : VaultState) (provider : String) :
    Except VaultError (Option ApiKeyEntry) :=
  if VaultService.isUnlocked st then
    .ok ((st.decryptedKeys.getD []).find? (fun k => k.provider == provider))
  else .error .vaultLocked

/-- The private VaultService.saveVault: throws when locked; encrypts
the current decrypted list under the held key with a fresh iv, reads
the latest persisted record (throws when absent) and writes it back
with new ciphertext, new iv and a new updatedAt, all other fields
carried over. -/
def VaultService.saveVaultPriv (st : VaultState) (sd : StoredData)
    (freshIv now : Nat) : Except VaultError (StoredData × VaultData) :=
  match st.decryptedKeys, st.encryptionKey with
  | some ks, some key =>
    let c := encrypt ks key freshIv
    match sd.vault with
    | none => .error .vaultMissing
    | some v =>
      let nv : VaultData := { v with encrypted := c, iv := freshIv, updatedAt := now }
      .ok (StorageService.saveVault sd nv, nv)
  | _, _ => .error .vaultLocked

/-- VaultService.addKey: requires unlocked; appends the new entry to
the in-memory list, re-encrypts and persists via the private
saveVault, then records a custom endpoint for lm_studio when a
(truthy) endpoint url was supplied. -/
def VaultService.addKey (st : VaultState) (sd : StoredData)
    (provider name apiKey : String) (endpointUrl : Option String)
    (freshId : String) (freshIv now : Nat) :
    Except VaultError (ApiKeyEntry × VaultState × StoredData × List VaultData) :=
  match st.decryptedKeys, st.encryptionKey with
  | some ks, some _ =>
    let entry : ApiKeyEntry := ⟨freshId, provider, name, apiKey, endpointUrl, now, now⟩
    let st1 : VaultState := { st with decryptedKeys := some (ks ++ [entry]) }
    match VaultService.saveVaultPriv st1 sd freshIv now with
    | .error e => .error e
    | .ok (sd1, w) =>
      let sd2 :=
        if (endpointUrl.getD "") ≠ "" ∧ provider = "lm_studio" then
          StorageService.saveCustomEndpoint sd1 freshId (endpointUrl.getD "")
        else sd1
      .ok (entry, st1, sd2, [w])
  | _, _ => .error .vaultLocked

/-- VaultService.updateKey: requires unlocked; returns `none` (no
write) on an unknown id, otherwise merges the supplied partial update
(present fields overwrite, absent fields keep the old value), bumps
updatedAt, re-encrypts and persists, then records a custom endpoint
when the endpointUrl field was present and the entry is for
lm_studio. -/
def VaultService.updateKey (st : VaultState) (sd : StoredData) (id : String)
    (updName updApiKey : Option String) (updEndpointUrl : Option (Option String))
    (freshIv now : Nat) :
    Except VaultError (Option ApiKeyEntry × VaultState × StoredData × List VaultData) :=
  match st.decryptedKeys, st.encryptionKey with
  | some ks, some _ =>
    match ks.findIdx? (fun k => k.id == id) with
    | none => .ok (none, st, sd, [])
    | some index =>
      let key := ks.getD index default
      let updated : ApiKeyEntry :=
        { key with
          name := updName.getD key.name,
          apiKey := updApiKey.getD key.apiKey,
          endpointUrl := updEndpointUrl.getD key.endpointUrl,
          updatedAt := now }
      let st1 : VaultState := { st with decryptedKeys := some (ks.set index updated) }
      match VaultService.saveVaultPriv st1 sd freshIv now with
      | .error e => .error e
      | .ok (sd1, w) =>
        let sd2 :=
          match updEndpointUrl with
          | some u =>
            if key.provider = "lm_studio" then
              StorageService.saveCustomEndpoint sd1 id (u.getD "")
            else sd1
          | none => sd1
        .ok (some updated, st1, sd2, [w])
  | _, _ => .error .vaultLocked

/-- VaultService.deleteKey: requires unlocked; returns `false` (no
write) on an unknown id, otherwise splices the entry out, re-encrypts
and persists. -/
def VaultService.deleteKey (st : VaultState) (sd : StoredData) (id : String)
    (freshIv now : Nat) :
    Except VaultError (Bool × VaultState × StoredData × List VaultData) :=
  match st.decryptedKeys, st.encryptionKey with
  | some ks, some _ =>
    match ks.findIdx? (fun k => k.id == id) with
    | none => .ok (false, st, sd, [])
    | some index =>
      let st1 : VaultState := { st with decryptedKeys := some (ks.eraseIdx index) }
      match VaultService.saveVaultPriv st1 sd freshIv now with
      | .error e => .error e
      | .ok (sd1, w) => .ok (true, st1, sd1, [w])
  | _, _ => .error .vaultLocked

/-- VaultService.changePassword: never throws (all failures are caught
and flattened to `false` with no state change).  Verifies the old
password by decrypting the persisted record under the key derived from
it; on success derives a brand-new key from a fresh salt, re-encrypts
the credential list under a fresh iv, persists the new record (keeping
createdAt), zeroizes the previously held key if any, and holds the new
key and the decrypted list in memory. -/
def VaultService.changePassword (st : VaultState) (sd : StoredData)
    (oldPassword newPassword : String) (freshSalt freshIv now : Nat) :
    Bool × VaultState × StoredData × List VaultData :=
  match sd.vault with
  | none => (false, st, sd, [])
  | some v =>
    let oldKey := deriveKey oldPassword v.salt
    match decrypt v.encrypted oldKey v.iv with
    | none => (false, st, sd, [])
    | some keys =>
      let newKey := deriveKey newPassword freshSalt
      let c := encrypt keys newKey freshIv
      let nv : VaultData := ⟨c, freshSalt, freshIv, v.createdAt, now⟩
      (true,
       ⟨some keys, some newKey, st.zeroized ++ st.encryptionKey.toList⟩,
       StorageService.saveVault sd nv, [nv])

/-! SessionService, from SessionService.ts.  The chrome.alarms slot is
the `newAlarmMinutes` field of the result (an alarm created with that
delayInMinutes, `none` when no alarm is created by the handler), and
the SESSION_LOCKED broadcast is the `notified` flag. -/

/-- Effects of one firing of the auto-lock alarm handler. -/
structure AutoLockResult where
  vaultState : VaultState
  notified : Bool
  newAlarmMinutes : Option Nat
deriving DecidableEq, Repr

/-- SessionService.handleAutoLock: a no-op when auto-lock is disabled
(0 minutes); locks the vault and notifies when the elapsed time since
the last activity has reached the threshold; otherwise re-creates the
one-shot alarm with `Math.ceil(remainingMs / 60000)` minutes. -/
def SessionService.handleAutoLock (vs : VaultState) (settings : ExtensionSettings)
    (lastActivity now : Nat) : AutoLockResult :=
  let minutes := settings.autoLockMinutes
  if minutes = 0 then ⟨vs, false, none⟩
  else
    let inactiveMs := now - lastActivity
    let thresholdMs := minutes * 60 * 1000
    if thresholdMs ≤ inactiveMs then ⟨VaultService.lock vs, true, none⟩
    else
      let remainingMs := thresholdMs - inactiveMs
      ⟨vs, false, some ((remainingMs + 59999) / 60000)⟩

/-! Background message handler, from message-handler.ts.  handleRequest
is embedded up to the point where the outbound call is executed: the
result is either the structured error of the first failing check, or
the fully composed outbound call (url, headers, streaming flag) that
is handed to the api-proxy.  The network itself, and the history write
that follows it, are outside this function (the history write is
StorageService.addRequestHistory, embedded above). -/

/-- TinylocketErrorCode values reachable from handleRequest. -/
inductive ErrCode where
  | LOCKED
  | DOMAIN_NOT_ALLOWED
  | NO_KEY
  | INVALID_REQUEST
  | NETWORK_ERROR
deriving DecidableEq, Repr

/-- The REQUEST payload from messages.ts; optional fields are absent
(`none`) when the caller omitted them, as at runtime. -/
structure RequestPayload where
  provider : Option String
  endpoint : Option String
  method : String
  headers : List (String × String)
  body : Option String
  stream : Bool
  endpointUrl : Option String
deriving DecidableEq, Repr

/-- Outcome of the authorization prefix of handleRequest. -/
inductive BrokerOutcome where
  | err (code : ErrCode)
  | proceed (url : String) (headers : List (String × String)) (stream : Bool)
deriving DecidableEq, Repr

/-- JavaScript truthiness of an optional string (`undefined` and the
empty string are falsy). -/
def jsTruthy (s : Option String) : Bool :=
  match s with
  | none => false
  | some v => v ≠ ""

/-- JavaScript `a || b || ''` over two optional strings. -/
def jsOrStr (a b : Option String) : String :=
  if jsTruthy a then a.getD "" else if jsTruthy b then b.getD "" else ""

/-- JavaScript object spread `{...hs, [k]: v}`: an existing key keeps
its position with the value replaced, a new key is appended. -/
def objSet (hs : List (String × String)) (k v : String) : List (String × String) :=
  if hs.any (fun p => p.1 == k) then
    hs.map (fun p => if p.1 == k then (k, v) else p)
  else hs ++ [(k, v)]

/-- handleRequest from message-handler.ts, its ordered checks and the
composition of the outbound call.  `domain` is the hostname already
derived from the caller origin.  The checks run in source order:
unlocked, (activity recording — a session effect with no influence on
the outcome), domain allow-list, provider presence, credential lookup,
provider-config lookup, endpoint-url resolution; then the auth header
is spread over the caller headers and the anthropic-version header is
added for the anthropic provider.  A missing `endpoint` interpolates
as the string "undefined", as in the source template literal. -/
def handleRequest (st : VaultState) (sd : StoredData) (payload : RequestPayload)
    (domain : String) : BrokerOutcome :=
  if ¬ VaultService.isUnlocked st then .err .LOCKED
  else if ¬ StorageService.isDomainWhitelisted sd domain then .err .DOMAIN_NOT_ALLOWED
  else if ¬ jsTruthy payload.provider then .err .INVALID_REQUEST
  else
    let provider := payload.provider.getD ""
    match (st.decryptedKeys.getD []).find? (fun k => k.provider == provider) with
    | none => .err .NO_KEY
    | some keyEntry =>
      match getProviderById provider with
      | none => .err .INVALID_REQUEST
      | some providerConfig =>
        let baseUrl :=
          if providerConfig.requiresEndpointUrl then
            jsOrStr payload.endpointUrl keyEntry.endpointUrl
          else providerConfig.baseUrl
        if providerConfig.requiresEndpointUrl ∧ baseUrl = "" then .err .INVALID_REQUEST
        else
          let fullUrl := baseUrl ++ (payload.endpoint.getD "undefined")
          let authHeaders :=
            objSet payload.headers providerConfig.authHeader
              (providerConfig.authPfx ++ keyEntry.apiKey)
          let authHeaders2 :=
            if provider = "anthropic" then
              objSet authHeaders "anthropic-version" "2023-06-01"
            else authHeaders
          .proceed fullUrl authHeaders2 payload.stream

/-! The streaming api-proxy, from api-proxy.ts.  The fetch response is
a value: `body` is the sequence of results the stream reader yields
(`none` models a null body), a `readFail` event being a read that
throws.  Emitted STREAM_CHUNK broadcasts are collected in order. -/

/-- One result of `reader.read()` before the reader reports done. -/
inductive ReadEvent where
  | chunk (s : String)
  | readFail (msg : String)
deriving DecidableEq, Repr

/-- A STREAM_CHUNK message broadcast to the tabs. -/
structure StreamChunkMsg where
  requestId : String
  chunk : String
  done : Bool
deriving DecidableEq, Repr

/-- A fetch response as seen by makeStreamingRequest. -/
structure FetchResponse where
  status : Nat
  ok : Bool
  headersResp : List (String × String)
  body : Option (List ReadEvent)
  errorText : String
deriving DecidableEq, Repr

/-- The non-streaming record makeStreamingRequest resolves with. -/
structure ApiResult where
  status : Nat
  headersResp : List (String × String)
  body : String
deriving DecidableEq, Repr

/-- The read loop of makeStreamingRequest: each data chunk is
broadcast with done = false and accumulated; a clean end of stream
broadcasts the terminal done chunk and returns the accumulated text; a
read failure broadcasts the terminal done chunk and rethrows. -/
def runReadLoop (requestId acc : String) (events : List ReadEvent) :
    List StreamChunkMsg × Except String String :=
  match events with
  | [] => ([⟨requestId, "", true⟩], .ok acc)
  | .chunk s :: rest =>
    let r := runReadLoop requestId (acc ++ s) rest
    (⟨requestId, s, false⟩ :: r.1, r.2)
  | .readFail m :: _ => ([⟨requestId, "", true⟩], .error m)

/-- makeStreamingRequest from api-proxy.ts: a non-ok response resolves
with the error body and no chunks; a null body throws with no chunks;
otherwise the read loop runs, and its failure is rethrown after the
terminal chunk was broadcast.  The first component is the promise
outcome, the second the broadcast STREAM_CHUNK messages in order. -/
def makeStreamingRequest (resp : FetchResponse) (requestId : String) :
    Except String ApiResult × List StreamChunkMsg :=
  if ¬ resp.ok then (.ok ⟨resp.status, resp.headersResp, resp.errorText⟩, [])
  else
    match resp.body with
    | none => (.error "Response body is null", [])
    | some events =>
      let r := runReadLoop requestId "" events
      match r.2 with
      | .ok fullContent => (.ok ⟨resp.status, resp.headersResp, fullContent⟩, r.1)
      | .error m => (.error m, r.1)

/-- The last `n` elements of a list (all of it when `n ≥ length`);
the meaning of JavaScript `slice(-n)` for `n ≥ 1`. -/
def lastN {α : Type} (n : Nat) (l : List α) : List α :=
  l.drop (l.length - n)

/-! Concrete instances used to witness hypotheses at evaluable
inputs. -/

/-- A one-credential decrypted list. -/
def wKeys : List ApiKeyEntry :=
  [⟨"id1", "openai", "main", "sk-test", none, 0, 0⟩]

/-- A persisted record holding wKeys encrypted under "old-pw". -/
def wVault : VaultData :=
  ⟨encrypt wKeys (deriveKey "old-pw" 7) 9, 7, 9, 0, 0⟩

/-- An unlocked in-memory state holding wKeys. -/
def wSt : VaultState :=
  ⟨some wKeys, some (deriveKey "old-pw" 7), []⟩

/-- A store persisting wVault. -/
def wSd : StoredData :=
  ⟨some wVault, [], [], DEFAULT_SETTINGS, []⟩

/-- A fresh in-memory state. -/
def wStEmpty : VaultState :=
  ⟨none, none, []⟩

/-- A store with no vault yet. -/
def wSdEmpty : StoredData :=
  ⟨none, [], [], DEFAULT_SETTINGS, []⟩

/-! Helper lemmas. -/

/-- jsSliceNeg agrees with lastN away from the `-0` pitfall. -/
theorem jsSliceNeg_of_pos {α : Type} {n : Nat} (l : List α) (h : n ≠ 0) :
    jsSliceNeg n l = lastN n l := by
  simp [jsSliceNeg, lastN, h]

/-- Length of lastN. -/
theorem lastN_length {α : Type} (n : Nat) (l : List α) :
    (lastN n l).length = min n l.length := by
  simp [lastN]
  omega

/-- lastN of a whole list that already fits. -/
theorem lastN_of_le {α : Type} {n : Nat} {l : List α} (h : l.length ≤ n) :
    lastN n l = l := by
  have : l.length - n = 0 := by omega
  simp [lastN, this]

/-- lastN over an append is lastN of the right part when that part is
long enough. -/
theorem lastN_append_of_le {α : Type} {n : Nat} (l m : List α) (h : n ≤ m.length) :
    lastN n (l ++ m) = lastN n m := by
  unfold lastN
  have hlen : (l ++ m).length - n = l.length + (m.length - n) := by
    simp [List.length_append]
    omega
  rw [hlen, List.drop_append]

/-- Trimming again after appending more elements loses nothing that
trimming at the end would not also lose. -/
theorem lastN_lastN_append {α : Type} {n : Nat} (l m : List α) (h : n ≤ l.length) :
    lastN n (lastN n l ++ m) = lastN n (l ++ m) := by
  have hsplit : l = l.take (l.length - n) ++ lastN n l := by
    simp [lastN, List.take_append_drop]
  have hlen : n ≤ (lastN n l ++ m).length := by
    simp [List.length_append, lastN_length]
    omega
  calc lastN n (lastN n l ++ m)
      = lastN n (l.take (l.length - n) ++ (lastN n l ++ m)) :=
        (lastN_append_of_le _ _ hlen).symm
    _ = lastN n (l ++ m) := by rw [← List.append_assoc, ← hsplit]

/-- The emitted chunk list of the read loop always ends with the
terminal done marker. -/
theorem runReadLoop_split (rid : String) (events : List ReadEvent) :
    ∀ acc : String, ∃ pre, (runReadLoop rid acc events).1 =
      pre ++ [⟨rid, "", true⟩] := by
  induction events with
  | nil => intro acc; exact ⟨[], rfl⟩
  | cons e rest ih =>
    intro acc
    cases e with
    | chunk s =>
      obtain ⟨pre, hpre⟩ := ih (acc ++ s)
      exact ⟨⟨rid, s, false⟩ :: pre, by simp [runReadLoop, hpre]⟩
    | readFail m => exact ⟨[], rfl⟩

/-! Claim theorems. -/

/-- C5: for all plaintexts P and passwords W, encrypting P under the
key derived from W with some salt and then decrypting the resulting
ciphertext with the key derived from W and the same salt, using the
nonce produced by encrypt, yields exactly P. -/
theorem spec_c5_roundtrip (P W : String) (s n : Nat) :
    decrypt (encrypt P (deriveKey W s) n) (deriveKey W s) n = some P := by
  simp [decrypt, encrypt]

/-- C9: lock zeroizes the held derived key, discards the in-memory
decrypted credential list, transitions the vault to Locked, and is
idempotent: the state after two calls equals the state after one, and
the state is Locked both times. -/
theorem spec_c9_lock_idempotent (st : VaultState) :
    VaultService.lock (VaultService.lock st) = VaultService.lock st ∧
    (VaultService.lock st).encryptionKey = none ∧
    (VaultService.lock st).decryptedKeys = none ∧
    VaultService.isUnlocked (VaultService.lock st) = false ∧
    VaultService.isUnlocked (VaultService.lock (VaultService.lock st)) = false ∧
    (VaultService.lock st).zeroized = st.zeroized ++ st.encryptionKey.toList := by
  simp [VaultService.lock, VaultService.isUnlocked]

/-- C4: a REQUEST arriving while the vault is unlocked from a caller
domain that is not on the allow-list yields DomainNotAllowed,
regardless of the payload and of whether any credential for the
requested provider is present: the domain check precedes the
credential lookup. -/
theorem spec_c4_domain_gate (st : VaultState) (sd : StoredData)
    (payload : RequestPayload) (domain : String)
    (hU : VaultService.isUnlocked st = true)
    (hD : StorageService.isDomainWhitelisted sd domain = false) :
    handleRequest st sd payload domain = .err .DOMAIN_NOT_ALLOWED := by
  simp [handleRequest, hU, hD]

/-- Witness for C4 at a concrete unlocked state, a non-whitelisted
domain, and a payload whose provider does have a stored credential. -/
theorem spec_c4_domain_gate_witness :
    VaultService.isUnlocked
      ⟨some [⟨"id1", "openai", "main", "sk-test", none, 0, 0⟩],
       some (deriveKey "pw" 1), []⟩ = true ∧
    StorageService.isDomainWhitelisted
      ⟨none, [⟨"app.example", 0⟩], [], DEFAULT_SETTINGS, []⟩ "other.com" = false ∧
    handleRequest
      ⟨some [⟨"id1", "openai", "main", "sk-test", none, 0, 0⟩],
       some (deriveKey "pw" 1), []⟩
      ⟨none, [⟨"app.example", 0⟩], [], DEFAULT_SETTINGS, []⟩
      ⟨some "openai", some "/v1/chat", "POST", [], none, false, none⟩
      "other.com" = .err .DOMAIN_NOT_ALLOWED :=
  ⟨by decide, by decide,
   spec_c4_domain_gate _ _ _ _ (by decide) (by decide)⟩

/-- C3: unlocking a persisted vault, encrypted under the current
master password w, with any password p ≠ w returns false, never throws
(the result is ok, not an error), and leaves the Locked state exactly
as it was: no derived key and no decrypted credential list in
memory. -/
theorem spec_c3_wrong_password (st : VaultState) (sd : StoredData) (v : VaultData)
    (w p : String)
    (hKeys : st.decryptedKeys = none) (hKey : st.encryptionKey = none)
    (hVault : sd.vault = some v)
    (hEnc : v.encrypted.keyUsed = deriveKey w v.salt)
    (hNe : p ≠ w) :
    VaultService.unlock st sd p = .ok (false, st) ∧
    VaultService.isUnlocked st = false := by
  have hkeyne : v.encrypted.keyUsed ≠ deriveKey p v.salt := by
    rw [hEnc]
    simp [deriveKey]
    exact fun h => (hNe h.symm).elim
  constructor
  · simp only [VaultService.unlock, hVault]
    simp [decrypt, hkeyne]
  · simp [VaultService.isUnlocked, hKeys, hKey]

/-- Witness for C3: a concrete vault created under "correct-horse",
unlocked with "wrong" from the Locked state. -/
theorem spec_c3_wrong_password_witness :
    (⟨none, none, []⟩ : VaultState).decryptedKeys = none ∧
    (⟨none, none, []⟩ : VaultState).encryptionKey = none ∧
    (⟨some ⟨encrypt [] (deriveKey "correct-horse" 7) 9, 7, 9, 0, 0⟩, [], [],
       DEFAULT_SETTINGS, []⟩ : StoredData).vault =
      some ⟨encrypt [] (deriveKey "correct-horse" 7) 9, 7, 9, 0, 0⟩ ∧
    (⟨encrypt [] (deriveKey "correct-horse" 7) 9, 7, 9, 0, 0⟩ :
        VaultData).encrypted.keyUsed = deriveKey "correct-horse" 7 ∧
    ("wrong" ≠ "correct-horse") ∧
    (VaultService.unlock ⟨none, none, []⟩
      ⟨some ⟨encrypt [] (deriveKey "correct-horse" 7) 9, 7, 9, 0, 0⟩, [], [],
        DEFAULT_SETTINGS, []⟩ "wrong" = .ok (false, ⟨none, none, []⟩) ∧
     VaultService.isUnlocked ⟨none, none, []⟩ = false) :=
  ⟨rfl, rfl, rfl, rfl, by decide,
   spec_c3_wrong_password _ _ _ _ _ rfl rfl rfl rfl (by decide)⟩

/-- C10: changePassword does not require the vault to be Unlocked:
with a persisted vault and a correct old password, the call succeeds
even from the Locked state and leaves the vault Unlocked, holding the
key derived from the new password and the decrypted credential list —
a Locked-to-Unlocked transition that bypasses unlock. -/
theorem spec_c10_changePassword_from_locked (st : VaultState) (sd : StoredData)
    (v : VaultData) (oldPw newPw : String) (freshSalt freshIv now : Nat)
    (hKeys : st.decryptedKeys = none) (hKey : st.encryptionKey = none)
    (hVault : sd.vault = some v)
    (hEnc : v.encrypted.keyUsed = deriveKey oldPw v.salt)
    (hNonce : v.encrypted.nonceUsed = v.iv) :
    VaultService.isUnlocked st = false ∧
    (VaultService.changePassword st sd oldPw newPw freshSalt freshIv now).1 = true ∧
    (VaultService.changePassword st sd oldPw newPw freshSalt freshIv
        now).2.1.decryptedKeys = some v.encrypted.data ∧
    (VaultService.changePassword st sd oldPw newPw freshSalt freshIv
        now).2.1.encryptionKey = some (deriveKey newPw freshSalt) ∧
    VaultService.isUnlocked
      (VaultService.changePassword st sd oldPw newPw freshSalt freshIv now).2.1 =
      true := by
  have hdec : decrypt v.encrypted (deriveKey oldPw v.salt) v.iv =
      some v.encrypted.data := by
    simp [decrypt, hEnc, hNonce]
  refine ⟨by simp [VaultService.isUnlocked, hKeys, hKey], ?_, ?_, ?_, ?_⟩ <;>
    simp [VaultService.changePassword, hVault, hdec, VaultService.isUnlocked]

/-- Witness for C10 at a concrete Locked state and persisted vault. -/
theorem spec_c10_changePassword_from_locked_witness :
    (⟨none, none, []⟩ : VaultState).decryptedKeys = none ∧
    (⟨none, none, []⟩ : VaultState).encryptionKey = none ∧
    (⟨some ⟨encrypt [⟨"id1", "openai", "main", "sk-test", none, 0, 0⟩]
          (deriveKey "old-pw" 7) 9, 7, 9, 0, 0⟩, [], [],
        DEFAULT_SETTINGS, []⟩ : StoredData).vault =
      some ⟨encrypt [⟨"id1", "openai", "main", "sk-test", none, 0, 0⟩]
          (deriveKey "old-pw" 7) 9, 7, 9, 0, 0⟩ ∧
    (VaultService.isUnlocked ⟨none, none, []⟩ = false ∧
     (VaultService.changePassword ⟨none, none, []⟩
        ⟨some ⟨encrypt [⟨"id1", "openai", "main", "sk-test", none, 0, 0⟩]
            (deriveKey "old-pw" 7) 9, 7, 9, 0, 0⟩, [], [],
          DEFAULT_SETTINGS, []⟩ "old-pw" "new-pw" 11 13 100).1 = true ∧
     (VaultService.changePassword ⟨none, none, []⟩
        ⟨some ⟨encrypt [⟨"id1", "openai", "main", "sk-test", none, 0, 0⟩]
            (deriveKey "old-pw" 7) 9, 7, 9, 0, 0⟩, [], [],
          DEFAULT_SETTINGS, []⟩ "old-pw" "new-pw" 11 13 100).2.1.decryptedKeys =
       some (⟨encrypt [⟨"id1", "openai", "main", "sk-test", none, 0, 0⟩]
            (deriveKey "old-pw" 7) 9, 7, 9, 0, 0⟩ : VaultData).encrypted.data ∧
     (VaultService.changePassword ⟨none, none, []⟩
        ⟨some ⟨encrypt [⟨"id1", "openai", "main", "sk-test", none, 0, 0⟩]
            (deriveKey "old-pw" 7) 9, 7, 9, 0, 0⟩, [], [],
          DEFAULT_SETTINGS, []⟩ "old-pw" "new-pw" 11 13 100).2.1.encryptionKey =
       some (deriveKey "new-pw" 11) ∧
     VaultService.isUnlocked
       (VaultService.changePassword ⟨none, none, []⟩
          ⟨some ⟨encrypt [⟨"id1", "openai", "main", "sk-test", none, 0, 0⟩]
              (deriveKey "old-pw" 7) 9, 7, 9, 0, 0⟩, [], [],
            DEFAULT_SETTINGS, []⟩ "old-pw" "new-pw" 11 13 100).2.1 = true) :=
  ⟨rfl, rfl, rfl,
   spec_c10_changePassword_from_locked _ _ _ _ _ _ _ _ rfl rfl rfl rfl rfl⟩

/-- C8: on every auto-lock alarm fire with auto-lock enabled: if the
elapsed time since last activity has reached the autoLockMinutes
threshold, the vault is locked and observers are notified; otherwise
the vault state is untouched and a new one-shot alarm is created for
the remaining time, rounded up to the whole-minute granularity of the
alarm API (the delay covers the remaining time and exceeds it by less
than one minute). -/
theorem spec_c8_autolock (vs : VaultState) (settings : ExtensionSettings)
    (lastActivity now : Nat) (hEnabled : settings.autoLockMinutes ≠ 0) :
    (settings.autoLockMinutes * 60 * 1000 ≤ now - lastActivity →
      SessionService.handleAutoLock vs settings lastActivity now =
        ⟨VaultService.lock vs, true, none⟩ ∧
      VaultService.isUnlocked (VaultService.lock vs) = false) ∧
    (now - lastActivity < settings.autoLockMinutes * 60 * 1000 →
      SessionService.handleAutoLock vs settings lastActivity now =
        ⟨vs, false,
         some ((settings.autoLockMinutes * 60 * 1000 - (now - lastActivity) + 59999) /
           60000)⟩ ∧
      settings.autoLockMinutes * 60 * 1000 - (now - lastActivity) ≤
        ((settings.autoLockMinutes * 60 * 1000 - (now - lastActivity) + 59999) /
          60000) * 60000 ∧
      ((settings.autoLockMinutes * 60 * 1000 - (now - lastActivity) + 59999) /
          60000) * 60000 <
        settings.autoLockMinutes * 60 * 1000 - (now - lastActivity) + 60000) := by
  constructor
  · intro hElapsed
    constructor
    · simp [SessionService.handleAutoLock, hEnabled, hElapsed]
    · simp [VaultService.lock, VaultService.isUnlocked]
  · intro hElapsed
    refine ⟨?_, ?_, ?_⟩
    · simp [SessionService.handleAutoLock, hEnabled]
      omega
    · omega
    · omega

/-- Witness for C8: auto-lock set to 5 minutes, timer firing exactly
at the threshold (locks) — the under-threshold implication holds
vacuously there. -/
theorem spec_c8_autolock_witness :
    ((⟨5, true, 1000⟩ : ExtensionSettings).autoLockMinutes ≠ 0) ∧
    (((⟨5, true, 1000⟩ : ExtensionSettings).autoLockMinutes * 60 * 1000 ≤
        300000 - 0 →
      SessionService.handleAutoLock ⟨some [], some (deriveKey "pw" 1), []⟩
          ⟨5, true, 1000⟩ 0 300000 =
        ⟨VaultService.lock ⟨some [], some (deriveKey "pw" 1), []⟩, true, none⟩ ∧
      VaultService.isUnlocked
        (VaultService.lock ⟨some [], some (deriveKey "pw" 1), []⟩) = false) ∧
    (300000 - 0 < (⟨5, true, 1000⟩ : ExtensionSettings).autoLockMinutes * 60 * 1000 →
      SessionService.handleAutoLock ⟨some [], some (deriveKey "pw" 1), []⟩
          ⟨5, true, 1000⟩ 0 300000 =
        ⟨⟨some [], some (deriveKey "pw" 1), []⟩, false,
         some (((⟨5, true, 1000⟩ : ExtensionSettings).autoLockMinutes * 60 * 1000 -
             (300000 - 0) + 59999) / 60000)⟩ ∧
      (⟨5, true, 1000⟩ : ExtensionSettings).autoLockMinutes * 60 * 1000 -
          (300000 - 0) ≤
        (((⟨5, true, 1000⟩ : ExtensionSettings).autoLockMinutes * 60 * 1000 -
            (300000 - 0) + 59999) / 60000) * 60000 ∧
      (((⟨5, true, 1000⟩ : ExtensionSettings).autoLockMinutes * 60 * 1000 -
            (300000 - 0) + 59999) / 60000) * 60000 <
        (⟨5, true, 1000⟩ : ExtensionSettings).autoLockMinutes * 60 * 1000 -
          (300000 - 0) + 60000)) :=
  ⟨by decide, spec_c8_autolock _ _ _ _ (by decide)⟩

/-- C1 counterexample: with an unlocked vault, a whitelisted domain
and a providerId ("frontier") that does not resolve to any
ProviderConfig, a REQUEST whose provider has no stored credential
fails with NO_KEY (NoCredential), not INVALID_REQUEST: the credential
lookup runs before the provider-config check. -/
theorem spec_c1_counterexample :
    getProviderById "frontier" = none ∧
    handleRequest ⟨some [], some (deriveKey "pw" 1), []⟩
      ⟨none, [⟨"app.example", 0⟩], [], DEFAULT_SETTINGS, []⟩
      ⟨some "frontier", some "/v1/chat", "POST", [], none, false, none⟩
      "app.example" = .err .NO_KEY ∧
    ErrCode.NO_KEY ≠ ErrCode.INVALID_REQUEST :=
  ⟨by decide, by decide, by decide⟩

/-- C1 amended: for a proxied REQUEST (unlocked vault, whitelisted
domain, provider present) whose providerId does not resolve to a known
ProviderConfig, handleRequest fails with InvalidRequest only when some
stored credential carries that providerId; when no stored credential
carries it, the credential lookup — which precedes the provider-config
check — fails first and the result is NoCredential. -/
theorem spec_c1_unknown_provider_amended (st : VaultState) (sd : StoredData)
    (payload : RequestPayload) (domain p : String)
    (hU : VaultService.isUnlocked st = true)
    (hD : StorageService.isDomainWhitelisted sd domain = true)
    (hP : payload.provider = some p) (hNe : p ≠ "")
    (hUnknown : getProviderById p = none) :
    ((∃ k ∈ st.decryptedKeys.getD [], k.provider = p) →
      handleRequest st sd payload domain = .err .INVALID_REQUEST) ∧
    ((∀ k ∈ st.decryptedKeys.getD [], k.provider ≠ p) →
      handleRequest st sd payload domain = .err .NO_KEY) := by
  constructor
  · rintro ⟨k, hk, hkp⟩
    cases hfind : (st.decryptedKeys.getD []).find? (fun e => e.provider == p) with
    | none =>
      exact absurd (List.find?_eq_none.mp hfind k hk) (by simp [hkp])
    | some e =>
      simp [handleRequest, hU, hD, hP, jsTruthy, hNe, hfind, hUnknown]
  · intro hnone
    have hfind : (st.decryptedKeys.getD []).find? (fun e => e.provider == p) = none := by
      apply List.find?_eq_none.mpr
      intro x hx
      simp [hnone x hx]
    simp [handleRequest, hU, hD, hP, jsTruthy, hNe, hfind]

/-- Witness for the amended C1, exercising both directions at concrete
states: one vault holding a credential tagged with the unknown
provider, one vault holding none. -/
theorem spec_c1_unknown_provider_amended_witness :
    (VaultService.isUnlocked
       ⟨some [⟨"id1", "frontier", "n", "sk", none, 0, 0⟩],
        some (deriveKey "pw" 1), []⟩ = true ∧
     StorageService.isDomainWhitelisted
       ⟨none, [⟨"app.example", 0⟩], [], DEFAULT_SETTINGS, []⟩ "app.example" = true ∧
     (⟨some "frontier", some "/v1/chat", "POST", [], none, false, none⟩ :
        RequestPayload).provider = some "frontier" ∧
     "frontier" ≠ "" ∧
     getProviderById "frontier" = none) ∧
    ((∃ k ∈ (⟨some [⟨"id1", "frontier", "n", "sk", none, 0, 0⟩],
          some (deriveKey "pw" 1), []⟩ : VaultState).decryptedKeys.getD [],
        k.provider = "frontier") →
      handleRequest
        ⟨some [⟨"id1", "frontier", "n", "sk", none, 0, 0⟩],
         some (deriveKey "pw" 1), []⟩
        ⟨none, [⟨"app.example", 0⟩], [], DEFAULT_SETTINGS, []⟩
        ⟨some "frontier", some "/v1/chat", "POST", [], none, false, none⟩
        "app.example" = .err .INVALID_REQUEST) ∧
    ((∀ k ∈ (⟨some [⟨"id1", "frontier", "n", "sk", none, 0, 0⟩],
          some (deriveKey "pw" 1), []⟩ : VaultState).decryptedKeys.getD [],
        k.provider ≠ "frontier") →
      handleRequest
        ⟨some [⟨"id1", "frontier", "n", "sk", none, 0, 0⟩],
         some (deriveKey "pw" 1), []⟩
        ⟨none, [⟨"app.example", 0⟩], [], DEFAULT_SETTINGS, []⟩
        ⟨some "frontier", some "/v1/chat", "POST", [], none, false, none⟩
        "app.example" = .err .NO_KEY) :=
  ⟨⟨by decide, by decide, rfl, by decide, by decide⟩,
   (spec_c1_unknown_provider_amended _ _ _ _ _ (by decide) (by decide) rfl
     (by decide) (by decide)).1,
   (spec_c1_unknown_provider_amended _ _ _ _ _ (by decide) (by decide) rfl
     (by decide) (by decide)).2⟩

/-- C7: for a streaming request whose response stream fails after
reading has begun (the response was ok and a body reader was
obtained), if the failure propagates out of makeStreamingRequest then
the broadcast chunk sequence ends with a terminal chunk tagged with
that requestId and done = true, emitted before the rethrow. -/
theorem spec_c7_stream_failure_terminal (resp : FetchResponse) (rid : String)
    (events : List ReadEvent) (m : String)
    (hOk : resp.ok = true) (hBody : resp.body = some events)
    (_hFail : (makeStreamingRequest resp rid).1 = .error m) :
    (makeStreamingRequest resp rid).2.getLast? = some ⟨rid, "", true⟩ := by
  obtain ⟨pre, hpre⟩ := runReadLoop_split rid events ""
  simp only [makeStreamingRequest, hOk, hBody]
  cases hres : (runReadLoop rid "" events).2 <;>
    simp [hres, hpre, List.getLast?_concat]

/-- Witness for C7: an in-flight stream that yields one data chunk and
then fails; the emitted sequence ends with the done marker. -/
theorem spec_c7_stream_failure_terminal_witness :
    (⟨200, true, [], some [.chunk "Hello", .readFail "boom"], ""⟩ :
        FetchResponse).ok = true ∧
    (⟨200, true, [], some [.chunk "Hello", .readFail "boom"], ""⟩ :
        FetchResponse).body = some [.chunk "Hello", .readFail "boom"] ∧
    (makeStreamingRequest
        ⟨200, true, [], some [.chunk "Hello", .readFail "boom"], ""⟩ "rid").1 =
      .error "boom" ∧
    (makeStreamingRequest
        ⟨200, true, [], some [.chunk "Hello", .readFail "boom"], ""⟩ "rid").2.getLast? =
      some ⟨"rid", "", true⟩ :=
  ⟨rfl, rfl, rfl,
   spec_c7_stream_failure_terminal _ _ [.chunk "Hello", .readFail "boom"] "boom"
     rfl rfl rfl⟩

/-- addRequestHistory never changes the settings. -/
theorem addRequestHistory_settings (sd : StoredData) (e : RequestHistoryEntry) :
    (StorageService.addRequestHistory sd e).settings = sd.settings := by
  unfold StorageService.addRequestHistory
  split <;> rfl

/-- With history enabled, one insertion appends and trims with
JavaScript slice. -/
theorem addRequestHistory_requestHistory (sd : StoredData) (e : RequestHistoryEntry)
    (hEnabled : sd.settings.historyEnabled = true) :
    (StorageService.addRequestHistory sd e).requestHistory =
      if sd.settings.maxHistoryEntries < (sd.requestHistory ++ [e]).length then
        jsSliceNeg sd.settings.maxHistoryEntries (sd.requestHistory ++ [e])
      else sd.requestHistory ++ [e] := by
  simp [StorageService.addRequestHistory, hEnabled]

/-- Folding insertions with history enabled and a positive cap, from a
starting history already within the cap, keeps exactly the cap-many
most recent entries of the concatenation. -/
theorem addRequestHistoryAll_requestHistory (es : List RequestHistoryEntry) :
    ∀ sd : StoredData, sd.settings.historyEnabled = true →
    1 ≤ sd.settings.maxHistoryEntries →
    sd.requestHistory.length ≤ sd.settings.maxHistoryEntries →
    (StorageService.addRequestHistoryAll sd es).requestHistory =
      lastN sd.settings.maxHistoryEntries (sd.requestHistory ++ es) := by
  induction es with
  | nil =>
    intro sd hEnabled _ hLe
    simpa [StorageService.addRequestHistoryAll] using (lastN_of_le hLe).symm
  | cons e rest ih =>
    intro sd hEnabled hMax hLe
    have hstep : StorageService.addRequestHistoryAll sd (e :: rest) =
        StorageService.addRequestHistoryAll (StorageService.addRequestHistory sd e)
          rest := rfl
    have hset := addRequestHistory_settings sd e
    have hhist := addRequestHistory_requestHistory sd e hEnabled
    rw [hstep]
    by_cases hc : sd.settings.maxHistoryEntries < (sd.requestHistory ++ [e]).length
    · have hlen1 : sd.requestHistory.length = sd.settings.maxHistoryEntries := by
        simp [List.length_append] at hc
        omega
      have hhist2 : (StorageService.addRequestHistory sd e).requestHistory =
          lastN sd.settings.maxHistoryEntries (sd.requestHistory ++ [e]) := by
        rw [hhist, if_pos hc, jsSliceNeg_of_pos _ (by omega)]
      have hlen2 : (StorageService.addRequestHistory sd e).requestHistory.length ≤
          (StorageService.addRequestHistory sd e).settings.maxHistoryEntries := by
        rw [hhist2, hset, lastN_length]
        omega
      have := ih (StorageService.addRequestHistory sd e)
        (by rw [hset]; exact hEnabled) (by rw [hset]; exact hMax) hlen2
      rw [this, hset, hhist2, lastN_lastN_append _ _ (by simp [List.length_append]; omega)]
      simp [List.append_assoc]
    · have hhist2 : (StorageService.addRequestHistory sd e).requestHistory =
          sd.requestHistory ++ [e] := by rw [hhist, if_neg hc]
      have hlen2 : (StorageService.addRequestHistory sd e).requestHistory.length ≤
          (StorageService.addRequestHistory sd e).settings.maxHistoryEntries := by
        rw [hhist2, hset]; omega
      have := ih (StorageService.addRequestHistory sd e)
        (by rw [hset]; exact hEnabled) (by rw [hset]; exact hMax) hlen2
      rw [this, hset, hhist2]
      simp [List.append_assoc]

/-- C6 counterexample: with history enabled and maxHistoryEntries = 0,
inserting maxHistoryEntries + 1 entries leaves 1 entry, not exactly
maxHistoryEntries (= 0) entries: JavaScript `slice(-0)` is `slice(0)`
and trims nothing. -/
theorem spec_c6_counterexample :
    (⟨none, [], [], ⟨30, true, 0⟩, []⟩ : StoredData).settings.historyEnabled = true ∧
    [(⟨"e1", 1, "openai", "/v1/x", "a.com", 200, 5⟩ : RequestHistoryEntry)].length =
      (⟨none, [], [], ⟨30, true, 0⟩, []⟩ : StoredData).settings.maxHistoryEntries + 1 ∧
    (StorageService.addRequestHistoryAll ⟨none, [], [], ⟨30, true, 0⟩, []⟩
        [⟨"e1", 1, "openai", "/v1/x", "a.com", 200, 5⟩]).requestHistory.length ≠
      (⟨none, [], [], ⟨30, true, 0⟩, []⟩ : StoredData).settings.maxHistoryEntries :=
  ⟨rfl, rfl, by decide⟩

/-- C6 amended: for every settings value with history enabled and a
positive maxHistoryEntries, and every starting history, after
inserting maxHistoryEntries + k entries (k ≥ 1) via addRequestHistory,
exactly the maxHistoryEntries most-recent entries remain, the older
entries having been dropped first.  (For maxHistoryEntries = 0 the
trim is a no-op — JavaScript `slice(-0)` — and the history grows
unboundedly, contradicting the claim as stated.) -/
theorem spec_c6_history_cap_amended (sd : StoredData)
    (es : List RequestHistoryEntry) (k : Nat)
    (hEnabled : sd.settings.historyEnabled = true)
    (hMax : 1 ≤ sd.settings.maxHistoryEntries)
    (hLen : es.length = sd.settings.maxHistoryEntries + k) (hk : 1 ≤ k) :
    (StorageService.addRequestHistoryAll sd es).requestHistory =
      lastN sd.settings.maxHistoryEntries es ∧
    (StorageService.addRequestHistoryAll sd es).requestHistory.length =
      sd.settings.maxHistoryEntries := by
  have hes : sd.settings.maxHistoryEntries ≤ es.length := by omega
  have hmain : (StorageService.addRequestHistoryAll sd es).requestHistory =
      lastN sd.settings.maxHistoryEntries es := by
    by_cases hstart : sd.requestHistory.length ≤ sd.settings.maxHistoryEntries
    · rw [addRequestHistoryAll_requestHistory es sd hEnabled hMax hstart,
        lastN_append_of_le _ _ hes]
    · cases es with
      | nil => simp at hLen; omega
      | cons e rest =>
        have hstep : StorageService.addRequestHistoryAll sd (e :: rest) =
            StorageService.addRequestHistoryAll
              (StorageService.addRequestHistory sd e) rest := rfl
        have hset := addRequestHistory_settings sd e
        have hc : sd.settings.maxHistoryEntries < (sd.requestHistory ++ [e]).length := by
          simp [List.length_append]; omega
        have hhist2 : (StorageService.addRequestHistory sd e).requestHistory =
            lastN sd.settings.maxHistoryEntries (sd.requestHistory ++ [e]) := by
          rw [addRequestHistory_requestHistory sd e hEnabled, if_pos hc,
            jsSliceNeg_of_pos _ (by omega)]
        have hlen2 : (StorageService.addRequestHistory sd e).requestHistory.length ≤
            (StorageService.addRequestHistory sd e).settings.maxHistoryEntries := by
          rw [hhist2, hset, lastN_length]
          omega
        rw [hstep, addRequestHistoryAll_requestHistory rest _
          (by rw [hset]; exact hEnabled) (by rw [hset]; exact hMax) hlen2, hset,
          hhist2, lastN_lastN_append _ _ (by simp [List.length_append]; omega)]
        have hrw : sd.requestHistory ++ [e] ++ rest = sd.requestHistory ++ (e :: rest) := by
          simp [List.append_assoc]
        rw [hrw, lastN_append_of_le _ _ hes]
  refine ⟨hmain, ?_⟩
  rw [hmain, lastN_length]
  omega

/-- Witness for the amended C6: cap 2, inserting 3 entries into a
starting history of 1 leaves exactly the last 2 inserted entries. -/
theorem spec_c6_history_cap_amended_witness :
    (⟨none, [], [⟨"e0", 0, "openai", "/v1/x", "a.com", 200, 5⟩],
        ⟨30, true, 2⟩, []⟩ : StoredData).settings.historyEnabled = true ∧
    1 ≤ (⟨none, [], [⟨"e0", 0, "openai", "/v1/x", "a.com", 200, 5⟩],
        ⟨30, true, 2⟩, []⟩ : StoredData).settings.maxHistoryEntries ∧
    [(⟨"e1", 1, "openai", "/v1/x", "a.com", 200, 5⟩ : RequestHistoryEntry),
      ⟨"e2", 2, "openai", "/v1/x", "a.com", 200, 5⟩,
      ⟨"e3", 3, "openai", "/v1/x", "a.com", 200, 5⟩].length =
      (⟨none, [], [⟨"e0", 0, "openai", "/v1/x", "a.com", 200, 5⟩],
        ⟨30, true, 2⟩, []⟩ : StoredData).settings.maxHistoryEntries + 1 ∧
    1 ≤ 1 ∧
    ((StorageService.addRequestHistoryAll
        ⟨none, [], [⟨"e0", 0, "openai", "/v1/x", "a.com", 200, 5⟩],
          ⟨30, true, 2⟩, []⟩
        [⟨"e1", 1, "openai", "/v1/x", "a.com", 200, 5⟩,
         ⟨"e2", 2, "openai", "/v1/x", "a.com", 200, 5⟩,
         ⟨"e3", 3, "openai", "/v1/x", "a.com", 200, 5⟩]).requestHistory =
      lastN (⟨none, [], [⟨"e0", 0, "openai", "/v1/x", "a.com", 200, 5⟩],
          ⟨30, true, 2⟩, []⟩ : StoredData).settings.maxHistoryEntries
        [⟨"e1", 1, "openai", "/v1/x", "a.com", 200, 5⟩,
         ⟨"e2", 2, "openai", "/v1/x", "a.com", 200, 5⟩,
         ⟨"e3", 3, "openai", "/v1/x", "a.com", 200, 5⟩] ∧
     (StorageService.addRequestHistoryAll
        ⟨none, [], [⟨"e0", 0, "openai", "/v1/x", "a.com", 200, 5⟩],
          ⟨30, true, 2⟩, []⟩
        [⟨"e1", 1, "openai", "/v1/x", "a.com", 200, 5⟩,
         ⟨"e2", 2, "openai", "/v1/x", "a.com", 200, 5⟩,
         ⟨"e3", 3, "openai", "/v1/x", "a.com", 200, 5⟩]).requestHistory.length =
      (⟨none, [], [⟨"e0", 0, "openai", "/v1/x", "a.com", 200, 5⟩],
          ⟨30, true, 2⟩, []⟩ : StoredData).settings.maxHistoryEntries) :=
  ⟨rfl, by decide, rfl, by decide,
   spec_c6_history_cap_amended _ _ 1 rfl (by decide) rfl (by decide)⟩

/-- C2: every vault mutation — addKey, updateKey, deleteKey, and
password rotation via changePassword — performs exactly one persisted
write of the VaultRecord, and that single written record carries the
new ciphertext and the new nonce together (the persisted iv is the
fresh nonce the ciphertext was produced under); the salt of the
written record equals the previous record's salt for addKey /
updateKey / deleteKey, is the freshly generated one for changePassword
(rotation), and is the freshly generated one at vault creation. -/
theorem spec_c2_vault_record_writes
    (st : VaultState) (sd : StoredData) (key : KdfKey) (ks : List ApiKeyEntry)
    (v : VaultData) (provider name apiKey id2 : String)
    (endpointUrl : Option String) (updName updApiKey : Option String)
    (updEndpointUrl : Option (Option String)) (i : Nat)
    (oldPw newPw password freshId : String) (freshSalt freshIv now : Nat)
    (st0 : VaultState) (sd0 : StoredData)
    (hKeys : st.decryptedKeys = some ks) (hKey : st.encryptionKey = some key)
    (hVault : sd.vault = some v)
    (hIdx : ks.findIdx? (fun k => k.id == id2) = some i)
    (hEnc : v.encrypted.keyUsed = deriveKey oldPw v.salt)
    (hNonce : v.encrypted.nonceUsed = v.iv)
    (hSd0 : sd0.vault = none) :
    (∃ e st1 sd1 w,
      VaultService.addKey st sd provider name apiKey endpointUrl freshId freshIv
          now = .ok (e, st1, sd1, [w]) ∧
      w.salt = v.salt ∧ w.createdAt = v.createdAt ∧ w.iv = freshIv ∧
      w.encrypted.nonceUsed = freshIv ∧ w.encrypted.keyUsed = key ∧
      sd1.vault = some w) ∧
    (∃ u st1 sd1 w,
      VaultService.updateKey st sd id2 updName updApiKey updEndpointUrl freshIv
          now = .ok (some u, st1, sd1, [w]) ∧
      w.salt = v.salt ∧ w.createdAt = v.createdAt ∧ w.iv = freshIv ∧
      w.encrypted.nonceUsed = freshIv ∧ w.encrypted.keyUsed = key ∧
      sd1.vault = some w) ∧
    (∃ st1 sd1 w,
      VaultService.deleteKey st sd id2 freshIv now = .ok (true, st1, sd1, [w]) ∧
      w.salt = v.salt ∧ w.createdAt = v.createdAt ∧ w.iv = freshIv ∧
      w.encrypted.nonceUsed = freshIv ∧ w.encrypted.keyUsed = key ∧
      sd1.vault = some w) ∧
    (∃ st1 sd1 w,
      VaultService.changePassword st sd oldPw newPw freshSalt freshIv now =
        (true, st1, sd1, [w]) ∧
      w.salt = freshSalt ∧ w.createdAt = v.createdAt ∧ w.iv = freshIv ∧
      w.encrypted.nonceUsed = freshIv ∧
      w.encrypted.keyUsed = deriveKey newPw freshSalt ∧
      sd1.vault = some w) ∧
    (∃ st1 sd1 w,
      VaultService.create st0 sd0 password freshSalt freshIv now =
        .ok (st1, sd1, [w]) ∧
      w.salt = freshSalt ∧ w.iv = freshIv ∧ w.encrypted.nonceUsed = freshIv ∧
      w.encrypted.keyUsed = deriveKey password freshSalt ∧
      sd1.vault = some w) := by
  obtain ⟨dk, ek, zl⟩ := st
  obtain ⟨vt, wl, rh, se, ce⟩ := sd
  obtain ⟨vt0, wl0, rh0, se0, ce0⟩ := sd0
  simp only at hKeys hKey hVault hSd0
  subst hKeys hKey hVault hSd0
  refine ⟨?_, ?_, ?_, ?_, ?_⟩
  · exact ⟨_, _, _, _, rfl, rfl, rfl, rfl, rfl, rfl, by split <;> rfl⟩
  · simp only [VaultService.updateKey]
    rw [hIdx]
    refine ⟨_, _, _, _, rfl, rfl, rfl, rfl, rfl, rfl, ?_⟩
    cases updEndpointUrl with
    | none => rfl
    | some u =>
      dsimp only
      split <;> rfl
  · simp only [VaultService.deleteKey]
    rw [hIdx]
    exact ⟨_, _, _, rfl, rfl, rfl, rfl, rfl, rfl, rfl⟩
  · have hdec : decrypt v.encrypted (deriveKey oldPw v.salt) v.iv =
        some v.encrypted.data := by simp [decrypt, hEnc, hNonce]
    simp only [VaultService.changePassword]
    rw [hdec]
    exact ⟨_, _, _, rfl, rfl, rfl, rfl, rfl, rfl, rfl⟩
  · exact ⟨_, _, _, rfl, rfl, rfl, rfl, rfl, rfl⟩

/-- Witness for C2 at concrete states: an unlocked vault holding one
credential, each mutation applied with fresh nonce 13, fresh salt 11,
uuid "id9" and clock 100. -/
theorem spec_c2_vault_record_writes_witness :
    (wSt.decryptedKeys = some wKeys ∧
     wSt.encryptionKey = some (deriveKey "old-pw" 7) ∧
     wSd.vault = some wVault ∧
     wKeys.findIdx? (fun k => k.id == "id1") = some 0 ∧
     wVault.encrypted.keyUsed = deriveKey "old-pw" wVault.salt ∧
     wVault.encrypted.nonceUsed = wVault.iv ∧
     wSdEmpty.vault = none) ∧
    ((∃ e st1 sd1 w,
      VaultService.addKey wSt wSd "openai" "n" "sk2" none "id9" 13 100 =
        .ok (e, st1, sd1, [w]) ∧
      w.salt = wVault.salt ∧ w.createdAt = wVault.createdAt ∧ w.iv = 13 ∧
      w.encrypted.nonceUsed = 13 ∧ w.encrypted.keyUsed = deriveKey "old-pw" 7 ∧
      sd1.vault = some w) ∧
    (∃ u st1 sd1 w,
      VaultService.updateKey wSt wSd "id1" none none none 13 100 =
        .ok (some u, st1, sd1, [w]) ∧
      w.salt = wVault.salt ∧ w.createdAt = wVault.createdAt ∧ w.iv = 13 ∧
      w.encrypted.nonceUsed = 13 ∧ w.encrypted.keyUsed = deriveKey "old-pw" 7 ∧
      sd1.vault = some w) ∧
    (∃ st1 sd1 w,
      VaultService.deleteKey wSt wSd "id1" 13 100 = .ok (true, st1, sd1, [w]) ∧
      w.salt = wVault.salt ∧ w.createdAt = wVault.createdAt ∧ w.iv = 13 ∧
      w.encrypted.nonceUsed = 13 ∧ w.encrypted.keyUsed = deriveKey "old-pw" 7 ∧
      sd1.vault = some w) ∧
    (∃ st1 sd1 w,
      VaultService.changePassword wSt wSd "old-pw" "new-pw" 11 13 100 =
        (true, st1, sd1, [w]) ∧
      w.salt = 11 ∧ w.createdAt = wVault.createdAt ∧ w.iv = 13 ∧
      w.encrypted.nonceUsed = 13 ∧ w.encrypted.keyUsed = deriveKey "new-pw" 11 ∧
      sd1.vault = some w) ∧
    (∃ st1 sd1 w,
      VaultService.create wStEmpty wSdEmpty "master" 11 13 100 =
        .ok (st1, sd1, [w]) ∧
      w.salt = 11 ∧ w.iv = 13 ∧ w.encrypted.nonceUsed = 13 ∧
      w.encrypted.keyUsed = deriveKey "master" 11 ∧
      sd1.vault = some w)) :=
  ⟨⟨rfl, rfl, rfl, by decide, rfl, rfl, rfl⟩,
   spec_c2_vault_record_writes wSt wSd (deriveKey "old-pw" 7) wKeys wVault
     "openai" "n" "sk2" "id1" none none none none 0 "old-pw" "new-pw" "master"
     "id9" 11 13 100 wStEmpty wSdEmpty rfl rfl rfl (by decide) rfl rfl rfl⟩

end TinyLocket
